import Mathlib

/-!
Shallow embedding of the deno_checker repository (src/mod.ts): the
CheckItem data model, the command executor boundary, the version
comparator isUpdatedVersion, and the sequential fail-fast orchestrator
check. JavaScript numbers obtained from parseInt over digit-only strings
are modelled as exact naturals; a failed parse (NaN) and a missing array
slot (undefined) are both modelled as none, since both compare as false
under the JavaScript less-than test used by the comparator.
-/

set_option autoImplicit false

namespace DenoChecker

/-- ExecResult represents the result of executing a command
(src/mod.ts lines 31-35): exit code plus decoded stdout and stderr. -/
structure ExecResult where
  code : Int
  stdout : String
  stderr : String
deriving DecidableEq, Repr

/-- Outcome of a CheckItem validation callback: the promise returned by
`after` either resolves with `string | void` (modelled as
`Option String`) or rejects with an Error whose message is kept. -/
inductive AfterOutcome where
  | resolved : Option String → AfterOutcome
  | rejected : String → AfterOutcome
deriving DecidableEq, Repr

/-- Whether an AfterOutcome is a resolution (validation success). -/
def AfterOutcome.isResolved : AfterOutcome → Bool
  | .resolved _ => true
  | .rejected _ => false

/-- CheckItem (src/mod.ts lines 11-26): a name, an optional command
(program followed by arguments; `none` models the absent field, while
`some []` models a present but empty array, which JavaScript treats as
truthy), and the `after` validation callback. -/
structure CheckItem where
  name : String
  command : Option (List String)
  after : ExecResult → AfterOutcome

/-- The external spawn boundary (Deno.Command): maps a full command line
to either a launch error message (the rejection of the output promise)
or an ExecResult. The orchestrator claims hold for every such
environment. -/
def Env : Type := List String → Except String ExecResult

/-- exec (src/mod.ts lines 42-55). `command.shift()` removes the first
element of the caller-owned array in place and the process is spawned
with that element as program and the remaining elements as arguments;
the pair returned here is the spawn outcome together with the state of
the array after the call, namely the tail of the original command. -/
def exec (env : Env) (command : List String) :
    Except String ExecResult × List String :=
  (env command, command.drop 1)

/-- The string printed by start (src/mod.ts lines 62-64):
a header padded with = characters up to width 80. -/
def padEnd (s : String) (n : Nat) (c : Char) : String :=
  s ++ String.mk (List.replicate (n - s.length) c)

/-- start (src/mod.ts lines 62-64): the header line text. -/
def startText (name : String) : String :=
  padEnd ("== " ++ name ++ " ") 80 '='

/-- complete (src/mod.ts lines 66-68): the success line text, including
the %c console-styling directive that the source embeds in the string. -/
def completeText (message : String) : String :=
  "%c" ++ message

/-- exit (src/mod.ts lines 57-60): the error line text printed before
Deno.exit(1). -/
def exitText (message : String) : String :=
  "%c[Error] " ++ message

/-- The success message built inside check (src/mod.ts line 175):
`OK ... name` followed by `: msg` only when msg is truthy, so an empty
string message is dropped exactly like an absent one. -/
def okText (name : String) (msg : Option String) : String :=
  "OK ... " ++ name ++
    (match msg with
      | some m => if m = "" then "" else ": " ++ m
      | none => "")

/-- One observable step of the orchestrator: a printed header, an
invocation of the command executor, an invocation of a validation
callback, a printed success line, or a printed error line. -/
inductive Event where
  | header (line : String)
  | execCall (command : List String)
  | afterCall (name : String) (result : ExecResult)
  | okLine (line : String)
  | errorLine (line : String)
deriving DecidableEq, Repr

/-- The synthetic result passed to `after` when a CheckItem has no
command (src/mod.ts line 173). -/
def syntheticResult : ExecResult :=
  { code := 0, stdout := "", stderr := "" }

/-- The body of the orchestrator loop for one item (src/mod.ts lines
171-173): if a command is present it goes through exec, whose shift
mutates the stored array (the returned CheckItem carries the tail); a
launch error skips the validator, per the promise chain
`exec(check.command).then(check.after)`. Returns the emitted events, the
validation outcome awaited by the loop, and the item state afterwards. -/
def runItem (env : Env) (item : CheckItem) :
    List Event × AfterOutcome × CheckItem :=
  match item.command with
  | none =>
      ([Event.afterCall item.name syntheticResult],
       item.after syntheticResult, item)
  | some cmd =>
      match exec env cmd with
      | (Except.ok r, rest) =>
          ([Event.execCall cmd, Event.afterCall item.name r],
           item.after r, { item with command := some rest })
      | (Except.error e, rest) =>
          ([Event.execCall cmd], AfterOutcome.rejected e,
           { item with command := some rest })

/-- check (src/mod.ts lines 168-180): the sequential fail-fast
orchestrator. Returns the trace of events, the process exit code (0 when
the loop completes, 1 when exit is reached via Deno.exit(1)), and the
state of the item list afterwards. On a rejection the remaining items
are returned untouched: the process terminates before reaching them. -/
def check (env : Env) : List CheckItem → List Event × Nat × List CheckItem
  | [] => ([], 0, [])
  | item :: rest =>
      let r := runItem env item
      match r.2.1 with
      | AfterOutcome.resolved msg =>
          (Event.header (startText item.name) :: r.1 ++
             [Event.okLine (completeText (okText item.name msg))] ++
             (check env rest).1,
           (check env rest).2.1,
           r.2.2 :: (check env rest).2.2)
      | AfterOutcome.rejected e =>
          (Event.header (startText item.name) :: r.1 ++
             [Event.errorLine (exitText e)],
           1, r.2.2 :: rest)

/-- JavaScript split with the one-character separator dot, on the
character list of the string: the empty string yields one empty
component, and every dot starts a fresh component. -/
def splitDotsAux : List Char → List (List Char)
  | [] => [[]]
  | c :: cs =>
      if c = '.' then [] :: splitDotsAux cs
      else
        match splitDotsAux cs with
        | [] => [[c]]
        | r :: rs => (c :: r) :: rs

/-- A component of a version string after the source strips every
non-digit character and applies parseInt (src/mod.ts lines 80-85): keep
the digits in order; an empty digit sequence parses to NaN, modelled
none. -/
def parseComponent (s : List Char) : Option Nat :=
  let digits := s.filter Char.isDigit
  if digits = [] then none
  else some (digits.foldl (fun n c => n * 10 + (c.toNat - 48)) 0)

/-- The parsed component array of a version string:
split on dots, each component through parseComponent. -/
def parseVersion (s : String) : List (Option Nat) :=
  (splitDotsAux s.toList).map parseComponent

/-- The JavaScript less-than test on parsed components: comparisons
involving NaN or undefined (none) are false. -/
def optLt : Option Nat → Option Nat → Bool
  | some a, some b => decide (a < b)
  | _, _ => false

/-- Component i of a version string as read by `v[i]` in the loop:
out-of-range indexing gives undefined, modelled none. -/
def versionComponent (s : String) (i : Nat) : Option Nat :=
  ((parseVersion s)[i]?).join

/-- isUpdatedVersion (src/mod.ts lines 76-92): the three-iteration loop
returning true at the first index where the current component is less
than the candidate component, and false after the loop. -/
def isUpdatedVersion (nowVersion newVersion : String) : Bool :=
  let v1 := parseVersion nowVersion
  let v2 := parseVersion newVersion
  if optLt v1[0]?.join v2[0]?.join then true
  else if optLt v1[1]?.join v2[1]?.join then true
  else if optLt v1[2]?.join v2[2]?.join then true
  else false

/-- The character class of the JavaScript whitespace pattern used by
`result.stdout.replace` in createVersionChecker (src/mod.ts line 135):
ASCII whitespace, no-break and unicode spaces, line and paragraph
separators, and the byte-order mark. -/
def isJsSpace (c : Char) : Bool :=
  c = ' ' || c = '\t' || c = '\n' || c = '\r' ||
  c.toNat = 11 || c.toNat = 12 ||
  c.toNat = 160 || c.toNat = 5760 ||
  (8192 ≤ c.toNat && c.toNat ≤ 8202) ||
  c.toNat = 8232 || c.toNat = 8233 || c.toNat = 8239 ||
  c.toNat = 8287 || c.toNat = 12288 || c.toNat = 65279

/-- Remove every whitespace character, as the global replace with the
empty string does. -/
def stripSpace (s : String) : String :=
  String.mk (s.toList.filter (fun c => !(isJsSpace c)))

/-- createVersionChecker (src/mod.ts lines 130-145): the VERSION check
item. Its validator strips whitespace from stdout to recover the latest
git tag, then resolves silently when isUpdatedVersion accepts the pair
and otherwise throws, which rejects the promise with the fixed message.
The exit code and stderr of the ExecResult are never read. -/
def createVersionChecker (version : String) : CheckItem :=
  { name := "VERSION check",
    command := some ["git", "describe", "--tags", "--abbrev=0"],
    after := fun result =>
      if isUpdatedVersion (stripSpace result.stdout) version then
        AfterOutcome.resolved none
      else
        AfterOutcome.rejected
          "VERSION is not updated. Update deno.json & deno task version" }

/-- The validation outcome the orchestrator awaits for one item. -/
def itemOutcome (env : Env) (item : CheckItem) : AfterOutcome :=
  (runItem env item).2.1

/-- The item state after one pass through the orchestrator body: the
exec shift drops the first element of a present command array and a
command-less item keeps its fields. -/
def shiftItem (item : CheckItem) : CheckItem :=
  { item with command := item.command.map (fun c => c.drop 1) }

/-- Whether a character list begins with a given segment. -/
def startsWithSeg : List Char → List Char → Bool
  | [], _ => true
  | _ :: _, [] => false
  | a :: as, b :: bs => a = b && startsWithSeg as bs

/-- Whether a character list contains a given segment somewhere. -/
def hasSeg (seg : List Char) : List Char → Bool
  | [] => seg.isEmpty
  | c :: cs => startsWithSeg seg (c :: cs) || hasSeg seg cs

/-- A concrete environment for witnesses: every spawn succeeds with exit
code 0 and empty output. -/
def witEnv : Env := fun _ => Except.ok syntheticResult

/-- A concrete command-less item whose validator resolves silently. -/
def witOkItem : CheckItem :=
  { name := "Alpha", command := none,
    after := fun _ => AfterOutcome.resolved none }

/-- A concrete command-less item whose validator rejects. -/
def witFailItem : CheckItem :=
  { name := "Beta", command := none,
    after := fun _ => AfterOutcome.rejected "failure" }

/-- A concrete item carrying a two-element command. -/
def witCmdItem : CheckItem :=
  { name := "Gamma", command := some ["git", "describe"],
    after := fun _ => AfterOutcome.resolved none }

/-- A concrete command-less item whose validator resolves with the empty
string as its message. -/
def witEmptyMsgItem : CheckItem :=
  { name := "Delta", command := none,
    after := fun _ => AfterOutcome.resolved (some "") }

/-- A concrete command-less item whose validator resolves with a
non-empty message. -/
def witMsgItem : CheckItem :=
  { name := "Epsilon", command := none,
    after := fun _ => AfterOutcome.resolved (some "fine") }

theorem isUpdatedVersion_eq_or (a b : String) :
    isUpdatedVersion a b =
      (optLt (versionComponent a 0) (versionComponent b 0) ||
       optLt (versionComponent a 1) (versionComponent b 1) ||
       optLt (versionComponent a 2) (versionComponent b 2)) := by
  simp only [isUpdatedVersion, versionComponent]
  cases optLt (parseVersion a)[0]?.join (parseVersion b)[0]?.join <;>
    cases optLt (parseVersion a)[1]?.join (parseVersion b)[1]?.join <;>
      cases optLt (parseVersion a)[2]?.join (parseVersion b)[2]?.join <;>
        simp

theorem exists_resolved {o : AfterOutcome} (h : o.isResolved = true) :
    ∃ m, o = AfterOutcome.resolved m := by
  cases o with
  | resolved m => exact ⟨m, rfl⟩
  | rejected e => simp [AfterOutcome.isResolved] at h

theorem exists_rejected {o : AfterOutcome} (h : o.isResolved = false) :
    ∃ e, o = AfterOutcome.rejected e := by
  cases o with
  | resolved m => simp [AfterOutcome.isResolved] at h
  | rejected e => exact ⟨e, rfl⟩

theorem check_nil (env : Env) : check env [] = ([], 0, []) := rfl

theorem check_cons_resolved (env : Env) (item : CheckItem)
    (rest : List CheckItem) (msg : Option String)
    (h : (runItem env item).2.1 = AfterOutcome.resolved msg) :
    check env (item :: rest) =
      (Event.header (startText item.name) :: (runItem env item).1 ++
         [Event.okLine (completeText (okText item.name msg))] ++
         (check env rest).1,
       (check env rest).2.1,
       (runItem env item).2.2 :: (check env rest).2.2) := by
  simp only [check]
  rw [h]

theorem check_cons_rejected (env : Env) (item : CheckItem)
    (rest : List CheckItem) (e : String)
    (h : (runItem env item).2.1 = AfterOutcome.rejected e) :
    check env (item :: rest) =
      (Event.header (startText item.name) :: (runItem env item).1 ++
         [Event.errorLine (exitText e)],
       1, (runItem env item).2.2 :: rest) := by
  simp only [check]
  rw [h]

theorem shiftItem_of_none {item : CheckItem} (h : item.command = none) :
    shiftItem item = item := by
  cases item with
  | mk n c a =>
      simp only at h
      subst h
      simp [shiftItem]

theorem runItem_shift (env : Env) (item : CheckItem) :
    (runItem env item).2.2 = shiftItem item := by
  cases hc : item.command with
  | none =>
      simp [runItem, hc, shiftItem_of_none hc]
  | some cmd =>
      cases he : env cmd with
      | ok r => simp [runItem, hc, exec, he, shiftItem]
      | error e => simp [runItem, hc, exec, he, shiftItem]

/-- Claim C3: isUpdatedVersion returns true exactly when some index
among 0, 1, 2 has the parsed current component strictly below the parsed
candidate component; an index where the current component exceeds the
candidate component does not end the scan, so a pair whose first
differing index has current above candidate but whose later index has
current below candidate still yields true, as the concrete pair 2.1.0
versus 1.2.0 shows. -/
theorem c3_comparator_scan :
    (∀ now new : String, isUpdatedVersion now new = true ↔
      ∃ i, i < 3 ∧
        optLt (versionComponent now i) (versionComponent new i) = true) ∧
    isUpdatedVersion "2.1.0" "1.2.0" = true := by
  constructor
  · intro now new
    rw [isUpdatedVersion_eq_or]
    constructor
    · intro h
      rcases Bool.or_eq_true_iff.mp h with h | h2
      · rcases Bool.or_eq_true_iff.mp h with h0 | h1
        · exact ⟨0, by omega, h0⟩
        · exact ⟨1, by omega, h1⟩
      · exact ⟨2, by omega, h2⟩
    · rintro ⟨i, hi, hlt⟩
      match i, hi with
      | 0, _ => simp [hlt]
      | 1, _ => simp [hlt]
      | 2, _ => simp [hlt]
  · decide

/-- Claim C6: a malformed or missing component (modelled none) makes the
less-than test at that index false, so malformed components never by
themselves make the comparator return true; in particular a candidate
whose first three components are all malformed is never reported newer
than anything. The embedding is a total function, matching the absence
of error conditions. -/
theorem c6_malformed_not_newer (now new : String) (i : Nat)
    (h : versionComponent now i = none ∨ versionComponent new i = none) :
    optLt (versionComponent now i) (versionComponent new i) = false ∧
    ∀ s : String, (∀ j, j < 3 → versionComponent s j = none) →
      ∀ cur : String, isUpdatedVersion cur s = false := by
  constructor
  · rcases h with h | h <;> rw [h]
    · rfl
    · cases versionComponent now i <;> rfl
  · intro s hs cur
    rw [isUpdatedVersion_eq_or, hs 0 (by omega), hs 1 (by omega),
      hs 2 (by omega)]
    cases versionComponent cur 0 <;> cases versionComponent cur 1 <;>
      cases versionComponent cur 2 <;> rfl

/-- Witness for C6 at a concrete malformed input: component 0 of a.2.3
has no digits, so the comparison at index 0 is false. -/
theorem c6_malformed_not_newer_witness :
    (versionComponent "a.2.3" 0 = none ∨ versionComponent "1.2.3" 0 = none) ∧
    optLt (versionComponent "a.2.3" 0) (versionComponent "1.2.3" 0) = false :=
  ⟨Or.inl (by decide),
   (c6_malformed_not_newer "a.2.3" "1.2.3" 0 (Or.inl (by decide))).1⟩

/-- Claim C7: only the first three components are examined; two pairs of
version strings that agree on parsed components 0, 1 and 2 get the same
verdict regardless of trailing components. -/
theorem c7_first_three_components (a b a2 b2 : String)
    (h : ∀ i, i < 3 → versionComponent a i = versionComponent a2 i ∧
      versionComponent b i = versionComponent b2 i) :
    isUpdatedVersion a b = isUpdatedVersion a2 b2 := by
  rw [isUpdatedVersion_eq_or, isUpdatedVersion_eq_or,
    (h 0 (by omega)).1, (h 0 (by omega)).2,
    (h 1 (by omega)).1, (h 1 (by omega)).2,
    (h 2 (by omega)).1, (h 2 (by omega)).2]

/-- Witness for C7: a fourth component does not change the verdict. -/
theorem c7_first_three_components_witness :
    (∀ i, i < 3 → versionComponent "1.2.3.99" i = versionComponent "1.2.3" i ∧
      versionComponent "9.9.9.0" i = versionComponent "9.9.9" i) ∧
    isUpdatedVersion "1.2.3.99" "9.9.9.0" = isUpdatedVersion "1.2.3" "9.9.9" :=
  ⟨by decide, c7_first_three_components "1.2.3.99" "9.9.9.0" "1.2.3" "9.9.9"
    (by decide)⟩

/-- Claim C8: on a version string whose first three components all parse
numerically, comparing the string with itself yields false; in
particular the pair of 1.0.0 with itself yields false. -/
theorem c8_equal_not_newer (v : String)
    (h : ∀ i, i < 3 → (versionComponent v i).isSome = true) :
    isUpdatedVersion v v = false ∧
    isUpdatedVersion "1.0.0" "1.0.0" = false := by
  constructor
  · rw [isUpdatedVersion_eq_or]
    have hx : ∀ x : Option Nat, optLt x x = false := by
      intro x
      cases x with
      | none => rfl
      | some a => simp [optLt]
    rw [hx, hx, hx]
    rfl
  · decide

/-- Witness for C8 at the concrete version 1.0.0. -/
theorem c8_equal_not_newer_witness :
    (∀ i, i < 3 → (versionComponent "1.0.0" i).isSome = true) ∧
    isUpdatedVersion "1.0.0" "1.0.0" = false :=
  ⟨by decide, (c8_equal_not_newer "1.0.0" (by decide)).1⟩

/-- Claim C2: fail-fast ordering. If every item before a failing item
validates successfully and that item fails, the run over the whole list
has exactly the trace of the run over the list truncated right after the
failing item, exits with status 1, and leaves every later item untouched
with its command never executed and its validator never invoked: every
executor invocation and every validator invocation is an event of the
trace, and that trace is the truncated one. -/
theorem c2_fail_fast (env : Env) (pre : List CheckItem) (item : CheckItem)
    (post : List CheckItem)
    (hpre : ∀ x ∈ pre, (itemOutcome env x).isResolved = true)
    (hitem : (itemOutcome env item).isResolved = false) :
    (check env (pre ++ item :: post)).1 = (check env (pre ++ [item])).1 ∧
    (check env (pre ++ item :: post)).2.1 = 1 ∧
    (check env (pre ++ item :: post)).2.2 =
      (check env (pre ++ [item])).2.2 ++ post := by
  induction pre with
  | nil =>
      obtain ⟨e, he⟩ := exists_rejected hitem
      simp only [List.nil_append]
      rw [check_cons_rejected env item post e he,
        check_cons_rejected env item [] e he]
      exact ⟨rfl, rfl, rfl⟩
  | cons x xs ih =>
      obtain ⟨m, hm⟩ := exists_resolved (hpre x (by simp))
      have ih2 := ih (fun y hy => hpre y (by simp [hy]))
      simp only [List.cons_append]
      rw [check_cons_resolved env x (xs ++ item :: post) m hm,
        check_cons_resolved env x (xs ++ [item]) m hm]
      refine ⟨?_, ?_, ?_⟩
      · simp [ih2.1]
      · simp [ih2.2.1]
      · simp [ih2.2.2]

/-- Witness for C2: with a trivial environment, a succeeding first item
and a failing second item, the third item contributes nothing to the
trace. -/
theorem c2_fail_fast_witness :
    (∀ x ∈ [witOkItem], (itemOutcome witEnv x).isResolved = true) ∧
    (itemOutcome witEnv witFailItem).isResolved = false ∧
    (check witEnv ([witOkItem] ++ witFailItem :: [witCmdItem])).1 =
      (check witEnv ([witOkItem] ++ [witFailItem])).1 :=
  ⟨by decide, by decide,
   (c2_fail_fast witEnv [witOkItem] witFailItem [witCmdItem]
     (by decide) (by decide)).1⟩

/-- Claim C4: exit code mapping. A run finishes with status 0 exactly
when every item of the list validates successfully, and every run
finishes with status 0 or with status 1. -/
theorem c4_exit_codes (env : Env) (list : List CheckItem) :
    ((check env list).2.1 = 0 ↔
      ∀ x ∈ list, (itemOutcome env x).isResolved = true) ∧
    ((check env list).2.1 = 0 ∨ (check env list).2.1 = 1) := by
  induction list with
  | nil => simp [check]
  | cons x xs ih =>
      cases h : (runItem env x).2.1 with
      | resolved m =>
          rw [check_cons_resolved env x xs m h]
          constructor
          · simp only [List.mem_cons]
            constructor
            · intro h0 y hy
              rcases hy with hy | hy
              · subst hy
                simp [itemOutcome, h, AfterOutcome.isResolved]
              · exact (ih.1.mp h0) y hy
            · intro hall
              exact ih.1.mpr (fun y hy => hall y (Or.inr hy))
          · exact ih.2
      | rejected e =>
          rw [check_cons_rejected env x xs e h]
          constructor
          · simp only
            constructor
            · intro h0
              exact absurd h0 (by simp)
            · intro hall
              have := hall x (by simp)
              rw [itemOutcome, h] at this
              simp [AfterOutcome.isResolved] at this
          · exact Or.inr rfl

/-- Claim C5: a CheckItem without a command goes through the
orchestrator body with no executor invocation and exactly one validator
invocation, whose argument is the synthetic result with exit code 0 and
empty stdout and stderr; the awaited outcome is the validator applied to
that synthetic result, and a single-item run shows the same through the
event trace. -/
theorem c5_commandless (env : Env) (item : CheckItem)
    (h : item.command = none) :
    (runItem env item).1 = [Event.afterCall item.name syntheticResult] ∧
    (runItem env item).2.1 = item.after syntheticResult ∧
    (check env [item]).1.filter
        (fun ev => match ev with | Event.execCall _ => true | _ => false) =
      [] ∧
    (check env [item]).1.filter
        (fun ev => match ev with | Event.afterCall _ _ => true | _ => false) =
      [Event.afterCall item.name syntheticResult] := by
  have h1 : (runItem env item).1 =
      [Event.afterCall item.name syntheticResult] := by
    simp [runItem, h]
  have h2 : (runItem env item).2.1 = item.after syntheticResult := by
    simp [runItem, h]
  refine ⟨h1, h2, ?_, ?_⟩ <;>
  · cases ho : item.after syntheticResult with
    | resolved m =>
        rw [check_cons_resolved env item [] m (by rw [h2, ho])]
        simp [h1, check_nil]
    | rejected e =>
        rw [check_cons_rejected env item [] e (by rw [h2, ho])]
        simp [h1]

/-- Witness for C5 at a concrete command-less item. -/
theorem c5_commandless_witness :
    witOkItem.command = none ∧
    (runItem witEnv witOkItem).1 =
      [Event.afterCall witOkItem.name syntheticResult] :=
  ⟨rfl, (c5_commandless witEnv witOkItem rfl).1⟩

theorem map_shiftItem_of_none (list : List CheckItem)
    (h : ∀ x ∈ list, x.command = none) :
    list.map shiftItem = list := by
  induction list with
  | nil => rfl
  | cons x xs ih =>
      rw [List.map_cons, shiftItem_of_none (h x (by simp)),
        ih (fun y hy => h y (by simp [hy]))]

theorem checkItems_of_all_resolved (env : Env) (list : List CheckItem)
    (h : ∀ x ∈ list, (itemOutcome env x).isResolved = true) :
    (check env list).2.2 = list.map shiftItem := by
  induction list with
  | nil => rfl
  | cons x xs ih =>
      obtain ⟨m, hm⟩ := exists_resolved (h x (by simp))
      rw [check_cons_resolved env x xs m hm]
      simp [runItem_shift, ih (fun y hy => h y (by simp [hy]))]

/-- Counterexample to claim C1: running the orchestrator on a concrete
item whose command has two elements changes the stored command array,
because exec shifts its first element off in place; running the
orchestrator again on the resulting list produces a different trace, so
the outcomes of the two runs differ even though the environment answers
every spawn identically. -/
theorem c1_counterexample :
    (check witEnv [witCmdItem]).2.2.map CheckItem.command ≠
      [witCmdItem].map CheckItem.command ∧
    (check witEnv (check witEnv [witCmdItem]).2.2).1 ≠
      (check witEnv [witCmdItem]).1 := by
  constructor <;> decide

/-- Claim C1 amended: executing a CheckItem is not free of residual
state. After a run in which every item validates successfully, each
item holds the tail of its original command array (the executor shift
removed the program element); only command-less items are left
unchanged, so only a list of command-less items reaches the next run in
its original state. -/
theorem c1_amended_shift (env : Env) (list : List CheckItem)
    (h : ∀ x ∈ list, (itemOutcome env x).isResolved = true) :
    (check env list).2.2 = list.map shiftItem ∧
    (∀ item : CheckItem, item.command = none → shiftItem item = item) ∧
    ((∀ x ∈ list, x.command = none) → (check env list).2.2 = list) := by
  refine ⟨checkItems_of_all_resolved env list h,
    fun item hi => shiftItem_of_none hi, ?_⟩
  intro hall
  rw [checkItems_of_all_resolved env list h, map_shiftItem_of_none list hall]

/-- Witness for the amended C1: the concrete two-element command comes
back as its one-element tail. -/
theorem c1_amended_shift_witness :
    (∀ x ∈ [witCmdItem], (itemOutcome witEnv x).isResolved = true) ∧
    (check witEnv [witCmdItem]).2.2 = [witCmdItem].map shiftItem :=
  ⟨by decide, (c1_amended_shift witEnv [witCmdItem] (by decide)).1⟩

theorem startsWithSeg_self_append (seg t : List Char) :
    startsWithSeg seg (seg ++ t) = true := by
  induction seg with
  | nil => rfl
  | cons c cs ih => simp [startsWithSeg, ih]

theorem hasSeg_self_append (seg t : List Char) :
    hasSeg seg (seg ++ t) = true := by
  cases seg with
  | nil =>
      cases t with
      | nil => rfl
      | cons c cs => simp [hasSeg, startsWithSeg]
  | cons c cs =>
      simp only [hasSeg, Bool.or_eq_true]
      exact Or.inl (startsWithSeg_self_append (c :: cs) t)

theorem hasSeg_append_right (seg a b : List Char) (h : hasSeg seg b = true) :
    hasSeg seg (a ++ b) = true := by
  induction a with
  | nil => simpa using h
  | cons c cs ih => simp [hasSeg, ih]

/-- Counterexample to claim C9: a validator that resolves with the empty
string as its message is a validator resolving with a string message,
yet the completion line the orchestrator emits for it carries no colon
separator at all, because the source drops a falsy message and the empty
string is falsy in JavaScript. -/
theorem c9_counterexample :
    witEmptyMsgItem.after syntheticResult =
      AfterOutcome.resolved (some "") ∧
    (check witEnv [witEmptyMsgItem]).1 =
      [Event.header (startText "Delta"),
       Event.afterCall "Delta" syntheticResult,
       Event.okLine "%cOK ... Delta"] ∧
    hasSeg (": " ++ "").toList "%cOK ... Delta".toList = false := by
  refine ⟨rfl, ?_, by decide⟩
  decide

/-- Claim C9 amended: a validator resolving with a non-empty string
message yields a completion line that is OK, dots, the item name, then
the message after a colon and space, and so contains that exact string
after the separator; a validator resolving with no message, or with the
empty string, which the source treats exactly like an absent message,
yields the completion line with the name only and no separator. -/
theorem c9_amended_message (env : Env) (item : CheckItem)
    (msg : Option String)
    (h : (runItem env item).2.1 = AfterOutcome.resolved msg) :
    (check env [item]).1 =
      Event.header (startText item.name) :: (runItem env item).1 ++
        [Event.okLine (completeText (okText item.name msg))] ∧
    (∀ m, msg = some m → m ≠ "" →
      okText item.name msg = "OK ... " ++ item.name ++ (": " ++ m) ∧
      hasSeg (": " ++ m).toList (okText item.name msg).toList = true) ∧
    (msg = none ∨ msg = some "" →
      okText item.name msg = "OK ... " ++ item.name) := by
  refine ⟨?_, ?_, ?_⟩
  · rw [check_cons_resolved env item [] msg h]
    simp [check_nil]
  · rintro m rfl hm
    have hok : okText item.name (some m) =
        "OK ... " ++ item.name ++ (": " ++ m) := by
      simp [okText, hm]
    refine ⟨hok, ?_⟩
    rw [hok]
    have : ("OK ... " ++ item.name ++ (": " ++ m)).toList =
        ("OK ... " ++ item.name).toList ++ (": " ++ m).toList := by
      simp [String.toList, String.data_append]
    rw [this]
    exact hasSeg_append_right _ _ _
      (by simpa using hasSeg_self_append (": " ++ m).toList [])
  · rintro (rfl | rfl) <;> simp [okText]

/-- Witness for the amended C9 at a concrete validator message. -/
theorem c9_amended_message_witness :
    (runItem witEnv witMsgItem).2.1 =
      AfterOutcome.resolved (some "fine") ∧
    (check witEnv [witMsgItem]).1 =
      Event.header (startText witMsgItem.name) ::
        (runItem witEnv witMsgItem).1 ++
        [Event.okLine (completeText (okText witMsgItem.name (some "fine")))] ∧
    okText witMsgItem.name (some "fine") =
      "OK ... " ++ witMsgItem.name ++ (": " ++ "fine") :=
  ⟨rfl, (c9_amended_message witEnv witMsgItem (some "fine") rfl).1,
   ((c9_amended_message witEnv witMsgItem (some "fine") rfl).2.1 "fine" rfl
     (by decide)).1⟩

/-- Claim C10: the validator built by createVersionChecker reads only
the stdout field of its ExecResult, so two results with equal stdout but
arbitrary exit codes and stderr texts get the same outcome; in
particular a nonzero exit code of the tag-describe command never by
itself decides the check. -/
theorem c10_stdout_only (version : String) (r1 r2 : ExecResult)
    (h : r1.stdout = r2.stdout) :
    (createVersionChecker version).after r1 =
      (createVersionChecker version).after r2 := by
  simp only [createVersionChecker, h]

/-- Witness for C10: equal stdout, different exit code and stderr, same
outcome. -/
theorem c10_stdout_only_witness :
    ExecResult.stdout { code := 1, stdout := "v1.0.0\n", stderr := "boom" } =
      ExecResult.stdout { code := 0, stdout := "v1.0.0\n", stderr := "" } ∧
    (createVersionChecker "1.0.1").after
        { code := 1, stdout := "v1.0.0\n", stderr := "boom" } =
      (createVersionChecker "1.0.1").after
        { code := 0, stdout := "v1.0.0\n", stderr := "" } :=
  ⟨rfl, c10_stdout_only "1.0.1" _ _ rfl⟩

end DenoChecker
